import Mathlib

/-!
Verification of the UniBristol RAG assistant core pipeline.

Shallow embedding of the query-time retrieval / rerank / generation
pipeline (`src/app.py`, `src/backend.py`) and the batch evaluation
harness (`src/run_test.py`), against the design specification.

Rerank scores are Python floats; they are modelled as rationals, which
is faithful for the order comparisons against the literal thresholds
0.40, 0.20 and 0.001 used by the code.
-/

namespace BristolBot

/-- A metadata value: the pipeline only ever reads strings (title, url)
and numbers (score) out of a document's metadata mapping. -/
inductive MVal where
  | str (s : String)
  | num (q : ℚ)
  deriving Repr, DecidableEq

/-- A retrieved passage: `page_content` plus a string-keyed metadata
mapping (a Python dict modelled as an insertion-ordered association
list). -/
structure Doc where
  page_content : String
  metadata : List (String × MVal)
  deriving Repr, DecidableEq

/-- Python dict key assignment `m[k] = v`: if the key is present its
value is updated in place (position preserved), otherwise the pair is
appended at the end. -/
def dictInsert : List (String × MVal) → String → MVal → List (String × MVal)
  | [], k, v => [(k, v)]
  | (k₀, v₀) :: rest, k, v =>
    if k₀ = k then (k, v) :: rest else (k₀, v₀) :: dictInsert rest k v

/-- Python dict lookup `m.get(k)`: first value stored under `k`, if any. -/
def metaLookup : List (String × MVal) → String → Option MVal
  | [], _ => none
  | (k₀, v₀) :: rest, k => if k₀ = k then some v₀ else metaLookup rest k

/-- Python dict lookup with default, `m.get(k, dflt)`. -/
def metaGetD (m : List (String × MVal)) (k : String) (dflt : MVal) : MVal :=
  (metaLookup m k).getD dflt

/-- `CONFIG["retrieval"]["score_threshold"]` from `config.py` /
`run_test.py`: the strict rerank filtering threshold 0.40. -/
def score_threshold : ℚ := 2/5

/-- `CONFIG["retrieval"]["final_k"]`: maximum number of passages kept
after rerank filtering. -/
def final_k : Nat := 5

/-- `CONFIG["retrieval"]["initial_k"]`: per-store retrieval count. -/
def initial_k : Nat := 10

/-- A reranker result entry `{id, score}`: the positional id the caller
assigned to the passage, and the relevance score. The flashrank ranker
returns these sorted descending by score. -/
abbrev RankEntry := Nat × ℚ

/-- `docs[int(res['id'])]` followed by `doc.metadata["score"] = res['score']`:
look the passage up by its positional id and attach the rerank score to
its metadata. -/
def attachScore (docs : List Doc) (r : RankEntry) : Doc :=
  let d := docs.getD r.1 ⟨"", []⟩
  { d with metadata := dictInsert d.metadata "score" (.num r.2) }

/-- `rerank_docs` of `src/app.py` (lines 64-89) and `src/run_test.py`
(lines 80-113), which are identical: keep every reranked passage whose
score strictly exceeds `score_threshold`, in reranker order, attaching
the score to the metadata; if that filters everything out but the
reranker returned something, keep the single first (best) passage
provided its score strictly exceeds 0.20; finally truncate to
`final_k`. The reranker call itself is external, so the function is
phrased over its returned `(id, score)` list. -/
def rerank_docs (docs : List Doc) (results : List RankEntry) : List Doc :=
  if docs = [] then []
  else
    let filtered := (results.filter (fun r => score_threshold < r.2)).map (attachScore docs)
    let withFallback :=
      if filtered = [] then
        match results with
        | [] => []
        | r₀ :: _ => if (1/5 : ℚ) < r₀.2 then [attachScore docs r₀] else []
      else filtered
    withFallback.take final_k

/-- `rerank_docs` of `src/backend.py` (lines 45-66): keep every passage
whose score strictly exceeds 0.001, in reranker order, truncate to 5.
No fallback rule. -/
def backend_rerank_docs (docs : List Doc) (results : List RankEntry) : List Doc :=
  if docs = [] then []
  else ((results.filter (fun r => (1/1000 : ℚ) < r.2)).map (attachScore docs)).take 5

/-- `CONFIG["prompt_template"]` of `config.py` / `run_test.py`. -/
def prompt_template : String :=
  "You are an expert academic advisor for the University of Bristol.\nUse the provided context to answer the student\u0027s question accurately.\n\nContext:\n{context}\n\nCRITICAL RULES:\n1. **Numbers over Words:** If the text contains specific thresholds (e.g., \"85%\", \"70%\"), prioritize them over general statements.\n2. **Conditional Logic:** If rules change by year (e.g., \"pre-2024\" vs \"post-2024\"), YOU MUST STATE BOTH. Do not guess.\n3. **Closed World Assumption:** If a payment method or course is NOT listed in the text, explicitly state that it is \"Not accepted\" or \"Not available\".\n4. **Citations:** Answer first, then list the source names used.\n\nQuestion:\n{question}\n\nAnswer:\n"

/-- `PromptTemplate.from_template(...).format(context=..., question=...)`:
substitute the two template variables. -/
def promptFormat (template context question : String) : String :=
  (template.replace "{context}" context).replace "{question}" question

/-- The fixed no-information answer of `get_answer` (`src/app.py`
line 121). -/
def no_info_answer : String :=
  "I couldn\u0027t find relevant information in the database."

/-- A source descriptor emitted by `get_answer` (`src/app.py`
lines 132-137). -/
structure Source where
  title : MVal
  url : MVal
  score : MVal
  content : String
  deriving Repr, DecidableEq

/-- The debug-info dict built by `get_answer` (`src/app.py`
lines 139-144): the three diagnostic fields are present exactly when
`debug_mode` is on; the `timings` entry is present either way. -/
structure DebugInfo where
  diagnostics : Option (Nat × Nat × ℚ)
  timings : List (String × ℚ)
  deriving Repr, DecidableEq

/-- The triple returned by `get_answer`. The extra `genCalled` field
instruments whether the language model (Generator) was invoked. -/
structure AnswerResult where
  answer : String
  sources : List Source
  debug_info : Option DebugInfo
  genCalled : Bool
  deriving Repr, DecidableEq

/-- `get_answer` of `src/app.py` (lines 91-146). The two vector stores
are modelled by the result of their `similarity_search` for this
question (`none` when the store is absent: it is then skipped). The
reranker is a function from the merged passage list to its scored
results, the language model a function from the formatted prompt to the
generated text, and `time.time()` a function from its call index (0-7,
in program order) to a timestamp. -/
def get_answer (course_store faq_store : Option (List Doc))
    (reranker : List Doc → List RankEntry)
    (llm : String → String) (clock : Nat → ℚ)
    (question : String) (debug_mode : Bool) : AnswerResult :=
  let start_total := clock 0
  let start_retrieval := clock 1
  let all_retrieved := course_store.getD [] ++ faq_store.getD []
  let timings := [("retrieval", clock 2 - start_retrieval)]
  let start_rerank := clock 3
  let best_docs := rerank_docs all_retrieved (reranker all_retrieved)
  let timings := timings ++ [("rerank", clock 4 - start_rerank)]
  if best_docs = [] then
    { answer := no_info_answer, sources := [], debug_info := none, genCalled := false }
  else
    let start_generation := clock 5
    let context_text := String.intercalate "\n\n" (best_docs.map (·.page_content))
    let response := llm (promptFormat prompt_template context_text question)
    let timings := timings ++ [("generation", clock 6 - start_generation)]
    let timings := timings ++ [("total", clock 7 - start_total)]
    let sources := best_docs.map (fun d =>
      { title := metaGetD d.metadata "title" (.str "Unknown")
        url := metaGetD d.metadata "url" (.str "#")
        score := metaGetD d.metadata "score" (.num 0)
        content := d.page_content : Source })
    { answer := response
      sources := sources
      debug_info := some
        { diagnostics :=
            if debug_mode then some (all_retrieved.length, best_docs.length, score_threshold)
            else none
          timings := timings }
      genCalled := true }

/-- One labelled test case of the batch input (`Question`,
`Ground_Truth` columns of the test table). -/
structure TestCase where
  question : String
  ground_truth : String
  deriving Repr, DecidableEq

/-- The data one successful pipeline invocation contributes to the
batch lists of `run_experiment` (`src/run_test.py` lines 177-181):
answer text, the context passages used, and their rerank scores. -/
structure RowOk where
  answer : String
  contexts : List String
  scores : List ℚ
  deriving Repr, DecidableEq

/-- One accumulated evaluation row: the per-row entries of the five
parallel lists of `run_experiment`. -/
structure EvalRow where
  question : String
  ground_truth : String
  answer : String
  contexts : List String
  retrieved_scores : List ℚ
  deriving Repr, DecidableEq

/-- The loop body of `run_experiment` (`src/run_test.py` lines 149-190)
for one test case. The retrieval/generation attempt is modelled by its
outcome: `some ok` when it returned, `none` when it raised; the
`except` branch substitutes the sentinel answer "Error", the sentinel
context list `["No context"]` and an empty score list. -/
def processRow (c : TestCase × Option RowOk) : EvalRow :=
  match c.2 with
  | some ok =>
    { question := c.1.question, ground_truth := c.1.ground_truth
      answer := ok.answer, contexts := ok.contexts, retrieved_scores := ok.scores }
  | none =>
    { question := c.1.question, ground_truth := c.1.ground_truth
      answer := "Error", contexts := ["No context"], retrieved_scores := [] }

/-- The whole batch loop of `run_experiment`: every test case produces
exactly one row, whether or not its pipeline invocation raised. -/
def runBatchRows (cases : List (TestCase × Option RowOk)) : List EvalRow :=
  cases.map processRow

/-- The four ragas metric names looked up by `run_experiment`
(`src/run_test.py` line 211). -/
def ragas_metric_names : List String :=
  ["faithfulness", "answer_relevancy", "context_recall", "answer_correctness"]

/-- The metric-aggregation loop of `run_experiment` (`src/run_test.py`
lines 210-216): each metric is looked up in the scoring result inside
its own try/except, a failing lookup (modelled by `none`) contributing
the value 0 instead of aborting. -/
def buildMetricsDict (results : String → Option ℚ) : List (String × ℚ) :=
  ragas_metric_names.map (fun m =>
    match results m with
    | some v => (m, v)
    | none => (m, 0))

/-- The accumulated batch lists handed to the scorer (`data_dict`,
`src/run_test.py` lines 194-199). -/
structure DataDict where
  question : List String
  answer : List String
  contexts : List (List String)
  ground_truth : List String
  deriving Repr, DecidableEq

/-- The scoring/saving phase of `run_experiment` (`src/run_test.py`
lines 204-265), abstracted to which files it writes: when the guarded
scoring-and-packaging block succeeds it writes the JSON report; when it
raises, the `except` branch writes the emergency CSV dump of
`data_dict` — but only if at least one answer was accumulated. -/
def gradeAndSave (dd : DataDict) (scoringFailed : Bool) :
    List (String × Option DataDict) :=
  if scoringFailed then
    if dd.answer.length > 0 then [("emergency_results.csv", some dd)] else []
  else
    [("latest_experiment_result.json", none)]

/-- A Python value as it occurs in the batch report handed to
`json.dump`: the standard JSON-encodable values, plus the three numpy
shapes (`np.integer`, `np.floating`, `np.ndarray`) that the scoring
library produces and that `NumpyEncoder` (`src/run_test.py`
lines 25-34) converts. -/
inductive PyVal where
  | npInt (n : ℤ)
  | npFloat (q : ℚ)
  | npArray (elems : List PyVal)
  | int (n : ℤ)
  | float (q : ℚ)
  | str (s : String)
  | bool (b : Bool)
  | null
  | list (elems : List PyVal)
  | dict (entries : List (String × PyVal))
  deriving Repr

/-- `json.dump(..., cls=NumpyEncoder)`: the standard encoder serializes
ints, floats, strings, booleans, `None`, lists and dicts structurally;
any other value is passed to `NumpyEncoder.default`, which converts
`np.integer` by `int(obj)`, `np.floating` by `float(obj)` and
`np.ndarray` by `obj.tolist()`, after which serialization recurses. -/
def jsonEncode : PyVal → PyVal
  | .npInt n => .int n
  | .npFloat q => .float q
  | .npArray [] => .list []
  | .npArray (x :: xs) =>
    match jsonEncode (.npArray xs) with
    | .list ws => .list (jsonEncode x :: ws)
    | w => w
  | .int n => .int n
  | .float q => .float q
  | .str s => .str s
  | .bool b => .bool b
  | .null => .null
  | .list [] => .list []
  | .list (x :: xs) =>
    match jsonEncode (.list xs) with
    | .list ws => .list (jsonEncode x :: ws)
    | w => w
  | .dict [] => .dict []
  | .dict ((k, v) :: es) =>
    match jsonEncode (.dict es) with
    | .dict ws => .dict ((k, jsonEncode v) :: ws)
    | w => w

/-- A value is standard when no numpy shape occurs anywhere in it: this
is what the written report may contain. -/
def PyVal.standard : PyVal → Bool
  | .npInt _ => false
  | .npFloat _ => false
  | .npArray _ => false
  | .int _ => true
  | .float _ => true
  | .str _ => true
  | .bool _ => true
  | .null => true
  | .list [] => true
  | .list (x :: xs) => x.standard && (PyVal.list xs).standard
  | .dict [] => true
  | .dict ((_, v) :: es) => v.standard && (PyVal.dict es).standard

/-! ## Helper lemmas -/

theorem metaLookup_dictInsert_self (m : List (String × MVal)) (k : String) (v : MVal) :
    metaLookup (dictInsert m k v) k = some v := by
  induction m with
  | nil => simp [dictInsert, metaLookup]
  | cons p rest ih =>
    obtain ⟨k₀, v₀⟩ := p
    by_cases h : k₀ = k
    · simp [dictInsert, h, metaLookup]
    · simp [dictInsert, h, metaLookup, ih]

theorem metaLookup_dictInsert_ne (m : List (String × MVal)) (k k₁ : String) (v : MVal)
    (h : k₁ ≠ k) : metaLookup (dictInsert m k v) k₁ = metaLookup m k₁ := by
  induction m with
  | nil => simp [dictInsert, metaLookup, Ne.symm h]
  | cons p rest ih =>
    obtain ⟨k₀, v₀⟩ := p
    by_cases h₀ : k₀ = k
    · subst h₀
      simp [dictInsert, metaLookup, Ne.symm h]
    · by_cases h₁ : k₀ = k₁
      · subst h₁
        simp [dictInsert, h₀, metaLookup, h]
      · simp [dictInsert, h₀, metaLookup, h₁, ih]

theorem mem_rerank_docs {docs : List Doc} {results : List RankEntry} {d : Doc}
    (hd : d ∈ rerank_docs docs results) : ∃ r ∈ results, d = attachScore docs r := by
  simp only [rerank_docs] at hd
  split at hd
  · simp at hd
  · replace hd := List.mem_of_mem_take hd
    split at hd
    · rcases results with _ | ⟨r₀, rs⟩
      · simp at hd
      · simp only [] at hd
        split at hd
        · simp at hd
          exact ⟨r₀, List.mem_cons_self r₀ rs, hd⟩
        · simp at hd
    · obtain ⟨r, hr, rfl⟩ := List.mem_map.1 hd
      exact ⟨r, List.mem_of_mem_filter hr, rfl⟩

theorem filter_above_eq_nil {results : List RankEntry}
    (hlow : ∀ r ∈ results, r.2 < score_threshold) :
    results.filter (fun r => score_threshold < r.2) = [] := by
  rw [List.filter_eq_nil_iff]
  intro r hr
  simp only [decide_eq_true_eq]
  exact not_lt_of_lt (hlow r hr)

/-! ## Claim theorems -/

/-- C1 (counterexample): with a single candidate whose rerank score is
exactly 0.20 — every score below `score_threshold`, best score ≥ 0.20 —
the rerank/filter step returns the empty list, not exactly one passage:
the fallback test of the code is strict (`> 0.20`), not `≥ 0.20`. -/
theorem fallback_floor_cex :
    (∀ r ∈ [((0 : Nat), (1/5 : ℚ))], r.2 < score_threshold) ∧
    ((1/5 : ℚ) ≥ 1/5) ∧
    rerank_docs [⟨"a", []⟩] [(0, (1/5 : ℚ))] = [] := by
  refine ⟨?_, le_refl _, ?_⟩
  · intro r hr
    simp at hr
    subst hr
    norm_num [score_threshold]
  · norm_num [rerank_docs, attachScore, score_threshold]

/-- C1 (amended): for every candidate set whose rerank scores are all
below `score_threshold`, the rerank/filter step returns exactly the
single best-scoring candidate when the best score is strictly greater
than 0.20, and the empty set when the best score is at most 0.20. -/
theorem fallback_floor (docs : List Doc) (r₀ : RankEntry) (rs : List RankEntry)
    (hdocs : docs ≠ [])
    (hlow : ∀ r ∈ r₀ :: rs, r.2 < score_threshold)
    (hsorted : List.Pairwise (fun a b : RankEntry => b.2 ≤ a.2) (r₀ :: rs)) :
    ((1/5 : ℚ) < r₀.2 →
      rerank_docs docs (r₀ :: rs) = [attachScore docs r₀] ∧
      ∀ r ∈ r₀ :: rs, r.2 ≤ r₀.2) ∧
    (r₀.2 ≤ (1/5 : ℚ) → rerank_docs docs (r₀ :: rs) = []) := by
  have hfil := filter_above_eq_nil hlow
  have hbest : ∀ r ∈ r₀ :: rs, r.2 ≤ r₀.2 := by
    intro r hr
    rcases List.mem_cons.1 hr with h | h
    · exact h ▸ le_refl _
    · exact (List.pairwise_cons.1 hsorted).1 r h
  constructor
  · intro hgt
    refine ⟨?_, hbest⟩
    simp only [rerank_docs, if_neg hdocs, hfil, List.map_nil, if_pos rfl]
    rw [if_pos hgt]
    simp [final_k]
  · intro hle
    have hnot : ¬ ((1/5 : ℚ) < r₀.2) := not_lt_of_le hle
    simp only [rerank_docs, if_neg hdocs, hfil, List.map_nil, if_pos rfl]
    rw [if_neg hnot]
    simp

/-- C1 (witness). -/
theorem fallback_floor_witness :
    rerank_docs [⟨"a", []⟩] [(0, (3/10 : ℚ))] = [attachScore [⟨"a", []⟩] (0, (3/10 : ℚ))] := by
  have h := fallback_floor [⟨"a", []⟩] (0, (3/10 : ℚ)) []
    (by simp)
    (by intro r hr; simp at hr; subst hr; norm_num [score_threshold])
    (by simp)
  exact (h.1 (by norm_num)).1

/-- C2: for every candidate set containing at least one rerank score
above `score_threshold`, the rerank/filter step returns exactly the
passages whose score exceeds `score_threshold`, in the reranker's
score-descending order, truncated to the first `final_k` entries. -/
theorem strict_filter (docs : List Doc) (results : List RankEntry)
    (hdocs : docs ≠ [])
    (hsorted : List.Pairwise (fun a b : RankEntry => b.2 ≤ a.2) results)
    (habove : ∃ r ∈ results, score_threshold < r.2) :
    rerank_docs docs results =
      ((results.filter (fun r => score_threshold < r.2)).map (attachScore docs)).take final_k ∧
    List.Pairwise (fun a b : RankEntry => b.2 ≤ a.2)
      ((results.filter (fun r => score_threshold < r.2)).take final_k) ∧
    ∀ r ∈ (results.filter (fun r => score_threshold < r.2)).take final_k,
      score_threshold < r.2 := by
  obtain ⟨r, hr, hrs⟩ := habove
  have hne : results.filter (fun r => score_threshold < r.2) ≠ [] := by
    intro hnil
    have : r ∈ results.filter (fun r => score_threshold < r.2) :=
      List.mem_filter.2 ⟨hr, by simpa using hrs⟩
    simp [hnil] at this
  refine ⟨?_, ?_, ?_⟩
  · simp only [rerank_docs, if_neg hdocs]
    rw [if_neg (by simpa using hne)]
  · exact ((hsorted.filter _).sublist (List.take_sublist _ _))
  · intro s hs
    have := List.mem_of_mem_take hs
    simpa using (List.mem_filter.1 this).2

/-- C2 (witness). -/
theorem strict_filter_witness :
    rerank_docs [⟨"a", []⟩, ⟨"b", []⟩] [(0, (9/10 : ℚ)), (1, (1/2 : ℚ))] =
      (([((0 : Nat), (9/10 : ℚ)), (1, (1/2 : ℚ))].filter
        (fun r => score_threshold < r.2)).map
          (attachScore [⟨"a", []⟩, ⟨"b", []⟩])).take final_k := by
  have h := strict_filter [⟨"a", []⟩, ⟨"b", []⟩] [(0, (9/10 : ℚ)), (1, (1/2 : ℚ))]
    (by simp)
    (by norm_num)
    ⟨(0, (9/10 : ℚ)), by norm_num [score_threshold]⟩
  exact h.1

/-- C3: whenever the merged candidate sequence is empty (in particular
when both configured vector stores are absent), `get_answer` returns
the fixed no-information answer with an empty source list and never
invokes the language model. -/
theorem no_info_short_circuit (course_store faq_store : Option (List Doc))
    (reranker : List Doc → List RankEntry) (llm : String → String)
    (clock : Nat → ℚ) (question : String) (debug_mode : Bool)
    (hempty : course_store.getD [] ++ faq_store.getD [] = []) :
    (get_answer course_store faq_store reranker llm clock question debug_mode).answer
        = no_info_answer ∧
    (get_answer course_store faq_store reranker llm clock question debug_mode).sources = [] ∧
    (get_answer course_store faq_store reranker llm clock question debug_mode).genCalled
        = false := by
  simp only [get_answer, hempty, rerank_docs, if_pos rfl]
  simp

/-- C3 (witness): both stores absent. -/
theorem no_info_short_circuit_witness :
    (get_answer none none (fun _ => []) (fun _ => "generated") (fun _ => 0) "q" false).answer
        = no_info_answer ∧
    (get_answer none none (fun _ => []) (fun _ => "generated") (fun _ => 0) "q" false).sources
        = [] ∧
    (get_answer none none (fun _ => []) (fun _ => "generated") (fun _ => 0) "q" false).genCalled
        = false :=
  no_info_short_circuit none none (fun _ => []) (fun _ => "generated") (fun _ => 0) "q" false rfl

/-- C5 (counterexample): an invocation that short-circuits with the
no-information answer returns `None` as its debug-info, so no timings
mapping at all — the claim that every invocation returns timings for
all four stages fails. -/
theorem timings_short_circuit_cex :
    (get_answer none none (fun _ => []) (fun _ => "generated") (fun _ => 0) "q" false).answer
        = no_info_answer ∧
    (get_answer none none (fun _ => []) (fun _ => "generated") (fun _ => 0) "q" false).debug_info
        = none := by
  constructor
  · rfl
  · rfl

/-- C5 (amended): every invocation of `get_answer` that reaches
generation (equivalently, does not short-circuit on an empty filtered
set) returns a debug-info value whose timings mapping carries exactly
the stage names "retrieval", "rerank", "generation", "total" in order,
regardless of the debug toggle; a short-circuiting invocation returns
no debug-info (hence no timings) at all. -/
theorem timings_on_generation (course_store faq_store : Option (List Doc))
    (reranker : List Doc → List RankEntry) (llm : String → String)
    (clock : Nat → ℚ) (question : String) (debug_mode : Bool)
    (hbest : rerank_docs (course_store.getD [] ++ faq_store.getD [])
      (reranker (course_store.getD [] ++ faq_store.getD [])) ≠ []) :
    (∃ di, (get_answer course_store faq_store reranker llm clock question debug_mode).debug_info
        = some di ∧
      di.timings.map Prod.fst = ["retrieval", "rerank", "generation", "total"]) ∧
    (get_answer course_store faq_store reranker llm clock question debug_mode).genCalled
        = true := by
  simp only [get_answer]
  rw [if_neg hbest]
  refine ⟨⟨_, rfl, ?_⟩, rfl⟩
  simp

/-- C5 (witness): a store whose single passage survives the filter. -/
theorem timings_on_generation_witness :
    (∃ di, (get_answer (some [⟨"c", []⟩]) none (fun _ => [(0, (1/2 : ℚ))])
        (fun _ => "generated") (fun _ => 0) "q" false).debug_info = some di ∧
      di.timings.map Prod.fst = ["retrieval", "rerank", "generation", "total"]) ∧
    (get_answer (some [⟨"c", []⟩]) none (fun _ => [(0, (1/2 : ℚ))])
        (fun _ => "generated") (fun _ => 0) "q" false).genCalled = true :=
  timings_on_generation (some [⟨"c", []⟩]) none (fun _ => [(0, (1/2 : ℚ))])
    (fun _ => "generated") (fun _ => 0) "q" false
    (by norm_num [rerank_docs, score_threshold, attachScore, final_k])

/-- C9: every passage surviving the rerank/filter step is a retrieved
passage with unchanged content whose metadata is the retrieved
metadata with exactly the key "score" added or updated to the rerank
score: the score key reads back the rerank score and every other key
reads back exactly as in the retrieved passage. -/
theorem rerank_frame (docs : List Doc) (results : List RankEntry)
    (hid : ∀ r ∈ results, r.1 < docs.length) :
    ∀ d ∈ rerank_docs docs results, ∃ r ∈ results, ∃ h : r.1 < docs.length,
      d.page_content = (docs.get ⟨r.1, h⟩).page_content ∧
      d.metadata = dictInsert (docs.get ⟨r.1, h⟩).metadata "score" (.num r.2) ∧
      metaLookup d.metadata "score" = some (.num r.2) ∧
      ∀ k, k ≠ "score" →
        metaLookup d.metadata k = metaLookup (docs.get ⟨r.1, h⟩).metadata k := by
  intro d hd
  obtain ⟨r, hr, rfl⟩ := mem_rerank_docs hd
  have hlt : r.1 < docs.length := hid r hr
  have hgetD : docs.getD r.1 ⟨"", []⟩ = docs.get ⟨r.1, hlt⟩ := by
    rw [List.getD_eq_getElem docs _ hlt]
    rfl
  refine ⟨r, hr, hlt, ?_, ?_, ?_, ?_⟩
  · simp only [attachScore]
    rw [hgetD]
  · simp only [attachScore]
    rw [hgetD]
  · simp only [attachScore]
    exact metaLookup_dictInsert_self _ _ _
  · intro k hk
    simp only [attachScore]
    rw [metaLookup_dictInsert_ne _ _ _ _ hk, hgetD]

/-- C9 (witness). -/
theorem rerank_frame_witness :
    ∃ r ∈ [((0 : Nat), (1/2 : ℚ))], ∃ h : r.1 < [(⟨"c", [("title", MVal.str "T")]⟩ : Doc)].length,
      (attachScore [⟨"c", [("title", MVal.str "T")]⟩] (0, (1/2 : ℚ))).page_content
        = ([(⟨"c", [("title", MVal.str "T")]⟩ : Doc)].get ⟨r.1, h⟩).page_content ∧
      (attachScore [⟨"c", [("title", MVal.str "T")]⟩] (0, (1/2 : ℚ))).metadata
        = dictInsert ([(⟨"c", [("title", MVal.str "T")]⟩ : Doc)].get ⟨r.1, h⟩).metadata
            "score" (.num r.2) ∧
      metaLookup (attachScore [⟨"c", [("title", MVal.str "T")]⟩] (0, (1/2 : ℚ))).metadata "score"
        = some (.num r.2) ∧
      ∀ k, k ≠ "score" →
        metaLookup (attachScore [⟨"c", [("title", MVal.str "T")]⟩] (0, (1/2 : ℚ))).metadata k
          = metaLookup ([(⟨"c", [("title", MVal.str "T")]⟩ : Doc)].get ⟨r.1, h⟩).metadata k :=
  rerank_frame [⟨"c", [("title", MVal.str "T")]⟩] [(0, (1/2 : ℚ))]
    (by intro r hr; simp at hr; subst hr; simp)
    (attachScore [⟨"c", [("title", MVal.str "T")]⟩] (0, (1/2 : ℚ)))
    (by norm_num [rerank_docs, score_threshold, final_k])

/-- C10: in the `backend.py` pipeline variant, for every non-empty
candidate list the rerank step returns exactly the candidates whose
score strictly exceeds 0.001, in reranker order, truncated to the
first 5, with no single-survivor fallback: the result is the plain
filter-and-truncate, and the policy differs from the
0.40-threshold-plus-0.20-floor variant at a concrete input. -/
theorem backend_strict_filter (docs : List Doc) (results : List RankEntry)
    (hdocs : docs ≠ []) :
    backend_rerank_docs docs results =
      ((results.filter (fun r => (1/1000 : ℚ) < r.2)).map (attachScore docs)).take 5 ∧
    ((∀ r ∈ results, r.2 ≤ (1/1000 : ℚ)) → backend_rerank_docs docs results = []) ∧
    backend_rerank_docs [⟨"t", []⟩] [(0, (1/10 : ℚ))]
      ≠ rerank_docs [⟨"t", []⟩] [(0, (1/10 : ℚ))] := by
  refine ⟨by simp [backend_rerank_docs, hdocs], ?_, ?_⟩
  · intro hlow
    have hfil : results.filter (fun r => (1/1000 : ℚ) < r.2) = [] := by
      rw [List.filter_eq_nil_iff]
      intro r hr
      simp only [decide_eq_true_eq]
      exact not_lt_of_le (hlow r hr)
    simp only [backend_rerank_docs, if_neg hdocs]
    rw [hfil]
    simp
  · norm_num [backend_rerank_docs, rerank_docs, score_threshold, attachScore, final_k]

/-- C4: for every batch of test cases, however many of them fail during
retrieval or generation, the harness loop completes and produces exactly
one row per test case, and every failed case's row carries the sentinel
answer "Error" and the sentinel context `["No context"]` in place of the
real ones, at the case's position and with its question and ground
truth. -/
theorem eval_batch_completes (cases : List (TestCase × Option RowOk)) :
    (runBatchRows cases).length = cases.length ∧
    ∀ i, i < cases.length →
      (runBatchRows cases).getD i ⟨"", "", "", [], []⟩
        = processRow (cases.getD i (⟨"", ""⟩, none)) ∧
      ((cases.getD i (⟨"", ""⟩, none)).2 = none →
        ((runBatchRows cases).getD i ⟨"", "", "", [], []⟩).answer = "Error" ∧
        ((runBatchRows cases).getD i ⟨"", "", "", [], []⟩).contexts = ["No context"] ∧
        ((runBatchRows cases).getD i ⟨"", "", "", [], []⟩).question
          = (cases.getD i (⟨"", ""⟩, none)).1.question ∧
        ((runBatchRows cases).getD i ⟨"", "", "", [], []⟩).ground_truth
          = (cases.getD i (⟨"", ""⟩, none)).1.ground_truth) := by
  refine ⟨by simp [runBatchRows], ?_⟩
  intro i hi
  have hi' : i < (runBatchRows cases).length := by simpa [runBatchRows] using hi
  have hmap : (runBatchRows cases).getD i ⟨"", "", "", [], []⟩
      = processRow (cases.getD i (⟨"", ""⟩, none)) := by
    rw [List.getD_eq_getElem _ _ hi', List.getD_eq_getElem _ _ hi]
    simp [runBatchRows]
  refine ⟨hmap, fun hnone => ?_⟩
  rw [hmap]
  unfold processRow
  rw [hnone]
  exact ⟨rfl, rfl, rfl, rfl⟩

/-- C4 (witness): a two-case batch whose second case fails. -/
theorem eval_batch_completes_witness :
    (runBatchRows [(⟨"q1", "t1"⟩, some ⟨"a1", ["c1"], [(1/2 : ℚ)]⟩),
      (⟨"q2", "t2"⟩, none)]).length = 2 ∧
    ((runBatchRows [(⟨"q1", "t1"⟩, some ⟨"a1", ["c1"], [(1/2 : ℚ)]⟩),
      (⟨"q2", "t2"⟩, none)]).getD 1 ⟨"", "", "", [], []⟩).answer = "Error" ∧
    ((runBatchRows [(⟨"q1", "t1"⟩, some ⟨"a1", ["c1"], [(1/2 : ℚ)]⟩),
      (⟨"q2", "t2"⟩, none)]).getD 1 ⟨"", "", "", [], []⟩).contexts = ["No context"] := by
  have h := eval_batch_completes [(⟨"q1", "t1"⟩, some ⟨"a1", ["c1"], [(1/2 : ℚ)]⟩),
    (⟨"q2", "t2"⟩, none)]
  have h2 := (h.2 1 (by norm_num)).2 rfl
  exact ⟨h.1.trans rfl, h2.1, h2.2.1⟩

/-- C6: the metric-aggregation step treats each of the four metric
lookups as independently fallible: whatever subset of metrics the
scoring result is missing, it records 0 for each missing metric and the
true value for each present one, producing all four entries and never
aborting. -/
theorem metric_extraction_defensive (results : String → Option ℚ) :
    buildMetricsDict results =
      [("faithfulness", (results "faithfulness").getD 0),
       ("answer_relevancy", (results "answer_relevancy").getD 0),
       ("context_recall", (results "context_recall").getD 0),
       ("answer_correctness", (results "answer_correctness").getD 0)] := by
  have h : ∀ m : String, (match results m with
      | some v => (m, v)
      | none => (m, (0 : ℚ))) = (m, (results m).getD 0) := by
    intro m
    cases results m <;> rfl
  simp [buildMetricsDict, ragas_metric_names, h]

/-- C7 (counterexample): a run in which the scoring step raises but no
row was accumulated (an empty batch) writes no artifact at all: the
emergency dump is guarded by `len(answers) > 0`, so the process does
not always leave an output artifact on disk. -/
theorem emergency_dump_cex :
    gradeAndSave ⟨[], [], [], []⟩ true = [] := by
  simp [gradeAndSave]

/-- C7 (amended): for every run in which the scoring/aggregation step
raises and at least one row was accumulated, the harness writes the
emergency dump of the accumulated question/answer/ground-truth/context
rows, so such a run leaves at least one output artifact. -/
theorem emergency_dump_on_failure (dd : DataDict) (h : dd.answer ≠ []) :
    gradeAndSave dd true = [("emergency_results.csv", some dd)] ∧
    gradeAndSave dd true ≠ [] := by
  have hlen : 0 < dd.answer.length := List.length_pos.2 h
  constructor <;> simp [gradeAndSave, hlen]

/-- C7 (witness). -/
theorem emergency_dump_on_failure_witness :
    gradeAndSave ⟨["q"], ["Error"], [["No context"]], ["t"]⟩ true
      = [("emergency_results.csv", some ⟨["q"], ["Error"], [["No context"]], ["t"]⟩)] ∧
    gradeAndSave ⟨["q"], ["Error"], [["No context"]], ["t"]⟩ true ≠ [] :=
  emergency_dump_on_failure ⟨["q"], ["Error"], [["No context"]], ["t"]⟩ (by simp)

theorem jsonEncode_npArray_toList (xs : List PyVal) :
    jsonEncode (.npArray xs) = .list (xs.map jsonEncode) := by
  induction xs with
  | nil => simp [jsonEncode]
  | cons x xs ih => simp [jsonEncode, ih]

theorem jsonEncode_standard (v : PyVal) : (jsonEncode v).standard = true := by
  induction v using jsonEncode.induct
  all_goals simp only [jsonEncode, PyVal.standard]
  all_goals try assumption
  all_goals split <;> simp_all [PyVal.standard]

/-- C8: serialization through `NumpyEncoder` normalizes every
library-specific numeric value: numpy integers become ordinary
integers, numpy floats become ordinary floats, numpy arrays become
lists, and whatever value is serialized, the written output contains no
numpy-typed value anywhere. -/
theorem numpy_encoder_normalizes :
    (∀ n : ℤ, jsonEncode (.npInt n) = .int n) ∧
    (∀ q : ℚ, jsonEncode (.npFloat q) = .float q) ∧
    (∀ xs : List PyVal, jsonEncode (.npArray xs) = .list (xs.map jsonEncode)) ∧
    ∀ v : PyVal, (jsonEncode v).standard = true :=
  ⟨fun _ => by simp [jsonEncode], fun _ => by simp [jsonEncode],
    jsonEncode_npArray_toList, jsonEncode_standard⟩

/-- C10 (witness). -/
theorem backend_strict_filter_witness :
    backend_rerank_docs [⟨"t", []⟩] [(0, (1/10 : ℚ))] =
      (([((0 : Nat), (1/10 : ℚ))].filter (fun r => (1/1000 : ℚ) < r.2)).map
        (attachScore [⟨"t", []⟩])).take 5 :=
  (backend_strict_filter [⟨"t", []⟩] [(0, (1/10 : ℚ))] (by simp)).1

end BristolBot
